import Mathlib

/-!
# mern-blog: user and post controllers

A shallow embedding of `server/controllers/userControllers.js` and
`server/controllers/postControllers.js`.

* The two document collections are lists of documents; a handler takes the
  store and returns the store it leaves behind together with its reply.
* A request body is a list of fields holding JSON values, as `express.json()`
  delivers them; a field that is not in the list reads as `undefined`
  (`none`).
* A document keeps a value as the handler assigns it.  The schema files are
  not among the sources, so no cast of a field value is modelled; the one
  cast that is modelled is that of the id string of a query, which is a
  parameter and may fail.
* Every handler is a `try` block with a `catch` that answers 422; the calls
  that can throw are modelled as such: the cast of a query id, an insert
  under a taken `_id`, a string method called on a value that is not a
  string, `bcrypt.compare` on a value that is not a string, and `jwt.sign`
  without a secret.
* What comes from outside the handlers is an argument: the fresh `_id` of a
  new document, the salt of `bcrypt.genSalt`, the signing secret, and the
  library functions `toLowerCase`, `bcrypt.hash`, `bcrypt.compare` and the
  id cast.
-/

namespace MernBlog

/-! ## JavaScript values -/

/-- UTF-16 code units taken by one character. -/
def utf16Units (c : Char) : Nat :=
  if c.toNat < 0x10000 then 1 else 2

/-- The `length` of a JavaScript string: its number of UTF-16 code units. -/
def jsLength (s : String) : Nat :=
  (s.data.map utf16Units).sum

/-- White space and line terminators of ECMAScript, as stripped by `trim`. -/
def isJsWhiteSpace (c : Char) : Bool :=
  let n := c.toNat
  n == 0x09 || n == 0x0A || n == 0x0B || n == 0x0C || n == 0x0D || n == 0x20 ||
  n == 0xA0 || n == 0x1680 || (0x2000 ≤ n && n ≤ 0x200A) || n == 0x2028 ||
  n == 0x2029 || n == 0x202F || n == 0x205F || n == 0x3000 || n == 0xFEFF

/-- The method `String.prototype.trim`. -/
def jsTrim (s : String) : String :=
  String.mk ((s.data.dropWhile isJsWhiteSpace).reverse.dropWhile isJsWhiteSpace).reverse

/-- A JSON value as it arrives in a request body.  Numbers are integers (a
handler only ever tests a number for being zero); an array or an object is
kept by its JSON text, since no handler looks inside one. -/
inductive JsVal where
  | null
  | bool (b : Bool)
  | num (n : Int)
  | str (s : String)
  | compound (json : String)
deriving DecidableEq

/-- Truthiness of a JSON value: `null`, `false`, `0` and the empty string
are falsy, everything else is truthy. -/
def JsVal.truthy : JsVal → Bool
  | .null => false
  | .bool b => b
  | .num n => n != 0
  | .str s => s != ""
  | .compound _ => true

/-- Truthiness of a value that may be `undefined`. -/
def truthy : Option JsVal → Bool
  | some v => v.truthy
  | none => false

/-- The operator `a || b`. -/
def jsOr (a b : Option JsVal) : Option JsVal :=
  if truthy a then a else b

/-! ## Requests, replies -/

/-- A request body (`req.body`): field names with their values. -/
abbrev Body := List (String × JsVal)

/-- Reading a field of the body, as the destructuring `const {f} = req.body`. -/
def field (b : Body) (k : String) : Option JsVal :=
  b.lookup k

/-- The authenticated principal `req.user`, set by the authentication
middleware before a protected handler runs. -/
structure Principal where
  id : String
  name : String
deriving DecidableEq

/-- A document identifier; `hex` is its canonical string form. -/
structure ObjectId where
  hex : String
deriving DecidableEq

/-- The method `toString` of an identifier. -/
def ObjectId.toString (o : ObjectId) : String := o.hex

/-- An error object `new HttpError(message, code)`. -/
structure HttpError where
  message : String
  code : Nat
deriving DecidableEq

/-- A user document. -/
structure User where
  _id : ObjectId
  name : JsVal
  email : String
  password : String
deriving DecidableEq

/-- A post document. -/
structure Post where
  _id : ObjectId
  title : Option JsVal
  content : Option JsVal
  category : Option JsVal
  author : ObjectId
deriving DecidableEq

/-- The claims signed into a token by `jwt.sign`. -/
structure TokenPayload where
  id : ObjectId
  name : JsVal
deriving DecidableEq

/-- A signed token, kept symbolically: what was signed, with which secret
and with which lifetime. -/
structure Token where
  payload : TokenPayload
  secret : String
  expiresIn : String
deriving DecidableEq

/-- The call `jwt.sign(payload, secret, {expiresIn})`; `secret` is
`process.env.JWT_SECRET`, which may be unset.  Without a secret, or with the
empty string, the call throws. -/
def jwtSign (payload : TokenPayload) (secret : Option String) (expiresIn : String) :
    Except Unit Token :=
  match secret with
  | some key => if key == "" then .error () else .ok ⟨payload, key, expiresIn⟩
  | none => .error ()

/-- The author of a post after `populate('author', 'name email')`. -/
structure AuthorView where
  _id : ObjectId
  name : JsVal
  email : String
deriving DecidableEq

/-- What a handler passes to `res.json`. -/
inductive Payload where
  | text (s : String)
  | message (s : String)
  | post (p : Post)
  | populated (p : Post) (author : Option AuthorView)
  | login (token : Token) (id : ObjectId) (name : JsVal)
deriving DecidableEq

/-- How a handler ends: `res.status(s).json(body)` or `next(err)`. -/
inductive Reply where
  | json (status : Nat) (body : Payload)
  | next (err : HttpError)
deriving DecidableEq

/-- Modelled from the spec: the error responder of
`middleware/errorMiddleware` (not among the sources) answers an `HttpError`
with the status code and the message the error carries. -/
def Reply.status : Reply → Nat
  | .json s _ => s
  | .next e => e.code

/-- Modelled from the spec: the same responder sends the message of the
error to the client; a reply made with `res.json` carries none. -/
def Reply.message : Reply → Option String
  | .json _ _ => none
  | .next e => some e.message

/-! ## The store -/

deriving instance DecidableEq for Except

/-- The two collections. -/
structure Store where
  users : List User
  posts : List Post
deriving DecidableEq

/-- A handler's effect: the store it leaves and its reply. -/
structure Result where
  store : Store
  reply : Reply
deriving DecidableEq

/-- Library functions the handlers call.  `castObjectId` is the cast the
document mapper applies to the id string of a query: `none` when the string
is not a well-formed id (the query then throws), else the identifier it
denotes. -/
structure Lib where
  toLowerCase : String → String
  hash : String → String → String
  compare : String → String → Bool
  castObjectId : String → Option ObjectId

/-- The query `Post.findById(id)`: it throws when the id cannot be cast,
and otherwise yields the post with that `_id` or `null`. -/
def Post.findById (L : Lib) (posts : List Post) (id : String) : Except Unit (Option Post) :=
  match L.castObjectId id with
  | none => .error ()
  | some oid => .ok (posts.find? (fun p => p._id == oid))

/-- The call `Post.create(doc)`: the insert is refused (it throws) when the
`_id` is already taken, since `_id` is a unique key. -/
def Post.create (posts : List Post) (doc : Post) : Except Unit (List Post) :=
  if posts.any (fun p => p._id == doc._id) then .error () else .ok (posts ++ [doc])

/-- The call `post.save()` of a loaded post: the stored document with that
`_id` is replaced. -/
def Post.save : List Post → Post → List Post
  | [], _ => []
  | q :: qs, p => if q._id == p._id then p :: qs else q :: Post.save qs p

/-- The call `post.remove()`: the stored document with that `_id` is deleted. -/
def Post.remove (posts : List Post) (p : Post) : List Post :=
  posts.eraseP (fun q => q._id == p._id)

/-- The query `User.findOne({email})`. -/
def User.findOne (users : List User) (email : String) : Option User :=
  users.find? (fun u => u.email == email)

/-- The query `User.findById(id)`, used by `populate`. -/
def User.findById (users : List User) (id : ObjectId) : Option User :=
  users.find? (fun u => u._id == id)

/-- The call `User.create(doc)`, refused when the `_id` is already taken. -/
def User.create (users : List User) (doc : User) : Except Unit (List User) :=
  if users.any (fun u => u._id == doc._id) then .error () else .ok (users ++ [doc])

/-- The step `populate('author', 'name email')` on one post. -/
def populateAuthor (users : List User) (p : Post) : Option AuthorView :=
  (User.findById users p.author).map (fun u => ⟨u._id, u.name, u.email⟩)

/-! ## postControllers.js -/

/-- The handler `createPost`. -/
def createPost (s : Store) (user : Principal) (body : Body) (newId : ObjectId) : Result :=
  let title := field body "title"
  let content := field body "content"
  let category := field body "category"
  if !truthy title || !truthy content then
    ⟨s, .next ⟨"Please fill in all fields.", 422⟩⟩
  else
    match Post.create s.posts ⟨newId, title, content, category, ⟨user.id⟩⟩ with
    | .ok posts =>
      ⟨{ s with posts := posts },
        .json 201 (.text ("New post created with ID: " ++ newId.toString))⟩
    | .error _ => ⟨s, .next ⟨"Post creation failed.", 422⟩⟩

/-- The handler `getPost`. -/
def getPost (L : Lib) (s : Store) (id : String) : Result :=
  match Post.findById L s.posts id with
  | .ok none => ⟨s, .next ⟨"Post not found.", 404⟩⟩
  | .ok (some post) => ⟨s, .json 200 (.populated post (populateAuthor s.users post))⟩
  | .error _ => ⟨s, .next ⟨"Failed to fetch post.", 422⟩⟩

/-- The handler `editPost`. -/
def editPost (L : Lib) (s : Store) (user : Principal) (id : String) (body : Body) : Result :=
  let title := field body "title"
  let content := field body "content"
  let category := field body "category"
  match Post.findById L s.posts id with
  | .ok none => ⟨s, .next ⟨"Post not found.", 404⟩⟩
  | .ok (some post) =>
    if post.author.toString != user.id then
      ⟨s, .next ⟨"You are not authorized to edit this post.", 403⟩⟩
    else
      let updatedPost : Post :=
        { post with
          title := jsOr title post.title
          content := jsOr content post.content
          category := jsOr category post.category }
      ⟨{ s with posts := Post.save s.posts updatedPost }, .json 200 (.post updatedPost)⟩
  | .error _ => ⟨s, .next ⟨"Failed to edit post.", 422⟩⟩

/-- The handler `deletePost`. -/
def deletePost (L : Lib) (s : Store) (user : Principal) (id : String) : Result :=
  match Post.findById L s.posts id with
  | .ok none => ⟨s, .next ⟨"Post not found.", 404⟩⟩
  | .ok (some post) =>
    if post.author.toString != user.id then
      ⟨s, .next ⟨"You are not authorized to delete this post.", 403⟩⟩
    else
      ⟨{ s with posts := Post.remove s.posts post },
        .json 200 (.message "Post deleted successfully.")⟩
  | .error _ => ⟨s, .next ⟨"Failed to delete post.", 422⟩⟩

/-! ## userControllers.js -/

/-- The handler `registerUser`; `salt` is what `bcrypt.genSalt(10)` returns.
The calls `email.toLowerCase()` and `password.trim()` throw on a value that
is not a string, which the `catch` answers. -/
def registerUser (L : Lib) (s : Store) (body : Body) (salt : String) (newId : ObjectId) :
    Result :=
  match field body "name", field body "email", field body "password" with
  | some name, some email, some password =>
    if !name.truthy || !email.truthy || !password.truthy then
      ⟨s, .next ⟨"Please fill in all fields.", 422⟩⟩
    else
      match email with
      | .str email =>
        let newEmail := L.toLowerCase email
        match User.findOne s.users newEmail with
        | some _ => ⟨s, .next ⟨"Email Already Exists.", 422⟩⟩
        | none =>
          match password with
          | .str password =>
            if jsLength (jsTrim password) < 6 then
              ⟨s, .next ⟨"Password must be at least 6 characters.", 422⟩⟩
            else if some (JsVal.str password) != field body "confirmPassword" then
              ⟨s, .next ⟨"Passwords do not match.", 422⟩⟩
            else
              let hashedPassword := L.hash password salt
              match User.create s.users ⟨newId, name, newEmail, hashedPassword⟩ with
              | .ok users =>
                ⟨{ s with users := users },
                  .json 201 (.text ("New user " ++ newEmail ++ " registered"))⟩
              | .error _ => ⟨s, .next ⟨"User Registration Failed.", 422⟩⟩
          | _ => ⟨s, .next ⟨"User Registration Failed.", 422⟩⟩
      | _ => ⟨s, .next ⟨"User Registration Failed.", 422⟩⟩
  | _, _, _ => ⟨s, .next ⟨"Please fill in all fields.", 422⟩⟩

/-- The handler `loginUser`; `secret` is `process.env.JWT_SECRET`.  The call
`email.toLowerCase()` throws on a value that is not a string, and so do
`bcrypt.compare` on a password that is not a string and `jwt.sign` without a
secret; the `catch` answers each of them. -/
def loginUser (L : Lib) (s : Store) (body : Body) (secret : Option String) : Result :=
  match field body "email", field body "password" with
  | some email, some password =>
    if !email.truthy || !password.truthy then
      ⟨s, .next ⟨"Fill in all fields.", 422⟩⟩
    else
      match email with
      | .str email =>
        let newEmail := L.toLowerCase email
        match User.findOne s.users newEmail with
        | none => ⟨s, .next ⟨"User Does Not Exist.", 422⟩⟩
        | some user =>
          match password with
          | .str password =>
            if !L.compare password user.password then
              ⟨s, .next ⟨"Password Incorrect.", 422⟩⟩
            else
              match jwtSign ⟨user._id, user.name⟩ secret "1d" with
              | .ok token => ⟨s, .json 200 (.login token user._id user.name)⟩
              | .error _ =>
                ⟨s, .next ⟨"Login Failed. Please Check Your Credentials.", 422⟩⟩
          | _ => ⟨s, .next ⟨"Login Failed. Please Check Your Credentials.", 422⟩⟩
      | _ => ⟨s, .next ⟨"Login Failed. Please Check Your Credentials.", 422⟩⟩
  | _, _ => ⟨s, .next ⟨"Fill in all fields.", 422⟩⟩

/-! ## Sequences of calls -/

/-- One call of a post handler that writes. -/
inductive PostCall where
  | create (user : Principal) (body : Body) (newId : ObjectId)
  | edit (user : Principal) (id : String) (body : Body)
  | delete (user : Principal) (id : String)
deriving DecidableEq

/-- Running one such call. -/
def PostCall.run (L : Lib) (s : Store) : PostCall → Result
  | .create user body newId => createPost s user body newId
  | .edit user id body => editPost L s user id body
  | .delete user id => deletePost L s user id

/-- A store together with a record of births: for each post created so far,
its `_id` and the author it had in the store right after `createPost`
answered 201 (newest first). -/
structure Trace where
  store : Store
  born : List (ObjectId × ObjectId)
deriving DecidableEq

/-- One call on a trace: the store moves as the handler says, and a
successful `createPost` is entered in the record. -/
def Trace.step (L : Lib) (t : Trace) (c : PostCall) : Trace :=
  let r := c.run L t.store
  match c with
  | .create _ _ newId =>
    if r.reply.status = 201 then
      match r.store.posts.find? (fun p => p._id == newId) with
      | some p => ⟨r.store, (newId, p.author) :: t.born⟩
      | none => ⟨r.store, t.born⟩
    else ⟨r.store, t.born⟩
  | _ => ⟨r.store, t.born⟩

/-- A sequence of calls on a trace. -/
def Trace.run (L : Lib) (t : Trace) (cs : List PostCall) : Trace :=
  cs.foldl (Trace.step L) t

/-- One call of `registerUser`: the body, the salt drawn and the fresh `_id`. -/
structure RegisterCall where
  body : Body
  salt : String
  newId : ObjectId
deriving DecidableEq

/-- Running one registration. -/
def RegisterCall.run (L : Lib) (s : Store) (c : RegisterCall) : Result :=
  registerUser L s c.body c.salt c.newId

/-- A sequence of registrations, one after the other. -/
def registerAll (L : Lib) (s : Store) (cs : List RegisterCall) : Store :=
  cs.foldl (fun st c => (c.run L st).store) s

/-- The store before anything was written. -/
def Store.empty : Store := ⟨[], []⟩

/-! ## Properties the statements use -/

/-- No two posts share an `_id` (the key of the collection). -/
def UniqueIds (posts : List Post) : Prop :=
  (posts.map (fun p => p._id)).Nodup

/-- Emails are stored lower-cased, and no two users share one. -/
def UsersNormal (L : Lib) (users : List User) : Prop :=
  (∀ u ∈ users, L.toLowerCase u.email = u.email) ∧ (users.map (fun u => u.email)).Nodup

/-- How `editPost` treats one field: a supplied truthy value (a non-empty
string among them) is assigned; an absent field, `null`, `false`, `0` and the
empty string leave the prior value. -/
def FieldRule (supplied prior saved : Option JsVal) : Prop :=
  (∀ v, supplied = some (JsVal.str v) → v ≠ "" → saved = some (JsVal.str v)) ∧
  ((supplied = none ∨ supplied = some JsVal.null ∨ supplied = some (JsVal.bool false) ∨
      supplied = some (JsVal.num 0) ∨ supplied = some (JsVal.str "")) → saved = prior) ∧
  (∀ v, supplied = some v → v.truthy = true → saved = some v)

/-- The record of births agrees with the store: ids are distinct and every
stored post has the author recorded at its creation. -/
def TraceOk (t : Trace) : Prop :=
  UniqueIds t.store.posts ∧ ∀ p ∈ t.store.posts, t.born.lookup p._id = some p.author

/-! ## Concrete data for the worked runs -/

/-- Lower-casing of one ASCII letter. -/
def lowerChar (c : Char) : Char :=
  if 65 ≤ c.toNat ∧ c.toNat ≤ 90 then Char.ofNat (c.toNat + 32) else c

/-- Lower-casing of the ASCII letters of a string. -/
def asciiLower (s : String) : String :=
  String.mk (s.data.map lowerChar)

/-- A hexadecimal digit. -/
def isHexDigit (c : Char) : Bool :=
  (48 ≤ c.toNat && c.toNat ≤ 57) || (65 ≤ c.toNat && c.toNat ≤ 70) ||
  (97 ≤ c.toNat && c.toNat ≤ 102)

/-- A small instance of the library functions: ASCII lower-casing, a
transparent hash that writes the salt before the password, and an id cast
that takes the strings of 24 hexadecimal digits, in either case. -/
def demoLib : Lib where
  toLowerCase := asciiLower
  hash := fun password salt => String.mk (salt.data ++ '$' :: password.data)
  compare := fun password hashed =>
    (hashed.data.dropWhile (fun c => c != '$')).drop 1 == password.data
  castObjectId := fun id =>
    if id.data.length = 24 ∧ id.data.all isHexDigit then some ⟨asciiLower id⟩ else none

/-- The id of the first user. -/
def u1 : String := "64b0000000000000000000a1"

/-- The id of the second user. -/
def u2 : String := "64b0000000000000000000a2"

/-- The id of a third user. -/
def u3 : String := "64b0000000000000000000a3"

/-- The id of the stored post. -/
def p1 : String := "64c0000000000000000000b1"

/-- The id of a post still to be created. -/
def p2 : String := "64c0000000000000000000b2"

/-- A well-formed id that no post has. -/
def p9 : String := "64c0000000000000000000b9"

/-- A registration. -/
def regAlice : RegisterCall :=
  ⟨[("name", .str "A"), ("email", .str "a@X.com"), ("password", .str "secret1"),
    ("confirmPassword", .str "secret1")], "s1", ⟨u1⟩⟩

/-- A later registration with the same email in capitals. -/
def regAliceCaps : RegisterCall :=
  ⟨[("name", .str "A again"), ("email", .str "A@X.COM"), ("password", .str "secret2"),
    ("confirmPassword", .str "secret2")], "s2", ⟨u2⟩⟩

/-- A registration with another email. -/
def regBob : RegisterCall :=
  ⟨[("name", .str "B"), ("email", .str "b@x.com"), ("password", .str "hunter22"),
    ("confirmPassword", .str "hunter22")], "s3", ⟨u3⟩⟩

/-- A principal. -/
def alice : Principal := ⟨u1, "Alice"⟩

/-- Another principal. -/
def bob : Principal := ⟨u2, "Bob"⟩

/-- A post written by `alice`. -/
def post1 : Post :=
  ⟨⟨p1⟩, some (.str "Hello"), some (.str "First post"), some (.str "tech"), ⟨u1⟩⟩

/-- A store holding `post1` and the two users. -/
def store1 : Store :=
  ⟨[⟨⟨u1⟩, .str "Alice", "a@x.com", "s1$secret1"⟩,
      ⟨⟨u2⟩, .str "Bob", "b@x.com", "s2$hunter22"⟩],
    [post1]⟩

/-- A registration body whose password is padded with blanks. -/
def paddedBody : Body :=
  [("name", .str "A"), ("email", .str "A@x.com"), ("password", .str "abc   "),
    ("confirmPassword", .str "abc   ")]

/-- A registration body that is in order. -/
def goodBody : Body :=
  [("name", .str "A"), ("email", .str "A@x.com"), ("password", .str "secret1"),
    ("confirmPassword", .str "secret1")]

/-- A login for an email that no user has. -/
def loginNobody : Body := [("email", .str "nobody@x.com"), ("password", .str "secret1")]

/-- A login of the first user with a wrong password. -/
def loginWrong : Body := [("email", .str "A@x.com"), ("password", .str "wrong")]

/-- A login of the first user, the email in another case. -/
def loginAlice : Body := [("email", .str "A@X.com"), ("password", .str "secret1")]

/-- A post body that also carries an author. -/
def postBody : Body := [("title", .str "T"), ("content", .str "C"), ("author", .str u2)]

/-- Another body with the same title and content. -/
def postBodyOther : Body :=
  [("author", .str "someone"), ("title", .str "T"), ("content", .str "C")]

/-! ## Lemmas on the collections -/

theorem findById_ok {L : Lib} {posts : List Post} {id : String} {r : Option Post}
    (h : Post.findById L posts id = .ok r) :
    ∃ oid, L.castObjectId id = some oid ∧ posts.find? (fun p => p._id == oid) = r := by
  unfold Post.findById at h
  cases hc : L.castObjectId id with
  | none => simp [hc] at h
  | some oid =>
    simp only [hc, Except.ok.injEq] at h
    exact ⟨oid, rfl, h⟩

theorem findById_of_cast {L : Lib} {posts : List Post} {id : String} {oid : ObjectId}
    (hc : L.castObjectId id = some oid) :
    Post.findById L posts id = .ok (posts.find? (fun p => p._id == oid)) := by
  simp [Post.findById, hc]

theorem findById_mem {L : Lib} {posts : List Post} {id : String} {post : Post}
    (h : Post.findById L posts id = .ok (some post)) : post ∈ posts := by
  obtain ⟨oid, _, hf⟩ := findById_ok h
  exact List.mem_of_find?_eq_some hf

theorem save_map_id (posts : List Post) (p : Post) :
    (Post.save posts p).map (fun q => q._id) = posts.map (fun q => q._id) := by
  induction posts with
  | nil => rfl
  | cons q qs ih =>
    unfold Post.save
    by_cases h : q._id = p._id
    · simp [h]
    · simp [h, ih]

theorem save_mem {posts : List Post} {p x : Post} (hx : x ∈ Post.save posts p) :
    x ∈ posts ∨ x = p := by
  induction posts with
  | nil => simp [Post.save] at hx
  | cons q qs ih =>
    unfold Post.save at hx
    by_cases h : q._id = p._id
    · simp [h] at hx
      rcases hx with hx | hx
      · exact Or.inr hx
      · exact Or.inl (List.mem_cons_of_mem _ hx)
    · simp [h] at hx
      rcases hx with hx | hx
      · exact Or.inl (by simp [hx])
      · rcases ih hx with h1 | h1
        · exact Or.inl (List.mem_cons_of_mem _ h1)
        · exact Or.inr h1

theorem find_save {posts : List Post} {oid : ObjectId} {post p : Post}
    (h : posts.find? (fun q => q._id == oid) = some post) (hp : p._id = post._id) :
    (Post.save posts p).find? (fun q => q._id == oid) = some p := by
  have hid : post._id = oid := by simpa using List.find?_some h
  induction posts with
  | nil => simp at h
  | cons q qs ih =>
    unfold Post.save
    by_cases hq : q._id = p._id
    · simp [hq, hp, hid]
    · have hq2 : ¬ q._id = oid := by rw [← hid, ← hp]; exact hq
      have hb : (q._id == oid) = false := by simpa using hq2
      have hb2 : (q._id == p._id) = false := by simpa using hq
      rw [List.find?_cons, hb] at h
      rw [hb2]
      simp only [Bool.false_eq_true, if_false]
      rw [List.find?_cons, hb]
      exact ih h

theorem find_remove {posts : List Post} {oid : ObjectId} {post : Post}
    (hu : UniqueIds posts) (h : posts.find? (fun q => q._id == oid) = some post) :
    (Post.remove posts post).find? (fun q => q._id == oid) = none := by
  have hid : post._id = oid := by simpa using List.find?_some h
  induction posts with
  | nil => simp at h
  | cons q qs ih =>
    unfold UniqueIds at hu
    simp only [List.map_cons, List.nodup_cons] at hu
    by_cases hq : q._id = oid
    · have hq3 : q._id = post._id := by rw [hid]; exact hq
      simp only [Post.remove, List.eraseP_cons, hq3, beq_self_eq_true, cond_true]
      rw [List.find?_eq_none]
      intro x hx
      have : x._id ≠ q._id := by
        intro hxq
        exact hu.1 (hxq ▸ List.mem_map_of_mem (fun p => p._id) hx)
      simpa [← hq] using this
    · have hq3 : ¬ q._id = post._id := by rw [hid]; exact hq
      have hb : (q._id == oid) = false := by simpa using hq
      have hb2 : (q._id == post._id) = false := by simpa using hq3
      rw [List.find?_cons, hb] at h
      have := ih hu.2 h
      rw [Post.remove, List.eraseP_cons, hb2, cond_false, List.find?_cons, hb]
      exact this

theorem findById_save {L : Lib} {posts : List Post} {id : String} {post p : Post}
    (h : Post.findById L posts id = .ok (some post)) (hp : p._id = post._id) :
    Post.findById L (Post.save posts p) id = .ok (some p) := by
  obtain ⟨oid, hc, hf⟩ := findById_ok h
  rw [findById_of_cast hc, find_save hf hp]

theorem findById_remove {L : Lib} {posts : List Post} {id : String} {post : Post}
    (hu : UniqueIds posts) (h : Post.findById L posts id = .ok (some post)) :
    Post.findById L (Post.remove posts post) id = .ok none := by
  obtain ⟨oid, hc, hf⟩ := findById_ok h
  rw [findById_of_cast hc, find_remove hu hf]

theorem uniqueIds_eq {posts : List Post} (hu : UniqueIds posts) {a b : Post}
    (ha : a ∈ posts) (hb : b ∈ posts) (h : a._id = b._id) : a = b := by
  induction posts with
  | nil => simp at ha
  | cons q qs ih =>
    unfold UniqueIds at hu
    simp only [List.map_cons, List.nodup_cons, List.mem_map, not_exists, not_and] at hu
    rcases List.mem_cons.mp ha with rfl | ha2
    · rcases List.mem_cons.mp hb with rfl | hb2
      · rfl
      · exact absurd h.symm (hu.1 b hb2)
    · rcases List.mem_cons.mp hb with rfl | hb2
      · exact absurd h (hu.1 a ha2)
      · exact ih hu.2 ha2 hb2

theorem fieldRule_jsOr (a prior : Option JsVal) : FieldRule a prior (jsOr a prior) := by
  refine ⟨?_, ?_, ?_⟩
  · intro v hv hne
    simp [jsOr, truthy, JsVal.truthy, hv, hne]
  · rintro (h | h | h | h | h) <;> simp [jsOr, truthy, JsVal.truthy, h]
  · intro v hv ht
    simp [jsOr, truthy, hv, ht]

/-! ## Posts: authorisation, field updates, deletion -/

/-- C1: when the post with the requested id exists and the principal's id
differs from the string form of its author, `editPost` (whatever the body)
and `deletePost` both answer 403 and leave the store as it was. -/
theorem nonAuthor_forbidden (L : Lib) (s : Store) (user : Principal) (id : String)
    (body : Body) (post : Post) (hfind : Post.findById L s.posts id = .ok (some post))
    (hne : user.id ≠ post.author.toString) :
    (editPost L s user id body).reply.status = 403 ∧ (editPost L s user id body).store = s ∧
    (deletePost L s user id).reply.status = 403 ∧ (deletePost L s user id).store = s := by
  have hb : (post.author.toString != user.id) = true := by
    simpa [bne_iff_ne] using fun h => hne h.symm
  simp [editPost, deletePost, hfind, hb, Reply.status]

theorem nonAuthor_forbidden_witness :
    (editPost demoLib store1 bob p1 [("title", .num 5), ("content", .str "Mine")]).reply.status
      = 403 ∧
    (editPost demoLib store1 bob p1 [("title", .num 5), ("content", .str "Mine")]).store
      = store1 ∧
    (deletePost demoLib store1 bob p1).reply.status = 403 ∧
    (deletePost demoLib store1 bob p1).store = store1 :=
  nonAuthor_forbidden demoLib store1 bob p1 [("title", .num 5), ("content", .str "Mine")]
    post1 (by decide) (by decide)

/-- C10 as stated fails: the author edits with the title supplied as the
number 5, which is not a non-empty string; the reply is 200 and the saved
title is the supplied 5, not the prior title. -/
theorem editPost_number_assigned :
    field [("title", JsVal.num 5)] "title" = some (JsVal.num 5) ∧
    Post.findById demoLib store1.posts p1 = .ok (some post1) ∧
    post1.author.toString = alice.id ∧
    post1.title = some (JsVal.str "Hello") ∧
    (editPost demoLib store1 alice p1 [("title", JsVal.num 5)]).reply.status = 200 ∧
    Post.findById demoLib
      (editPost demoLib store1 alice p1 [("title", JsVal.num 5)]).store.posts p1 =
      .ok (some { post1 with title := some (JsVal.num 5) }) ∧
    some (JsVal.num 5) ≠ post1.title := by
  decide

/-- C10 (amended): when the author edits an existing post, the reply is 200
with the saved post, the store holds that post under the id, and each of
title, content and category is the supplied value if that is truthy (a
non-empty string, or a non-zero number, `true`, an array, an object) and the
prior value if the field is absent, `null`, `false`, `0` or the empty
string. -/
theorem editPost_field_rule (L : Lib) (s : Store) (user : Principal) (id : String)
    (body : Body) (post : Post) (hfind : Post.findById L s.posts id = .ok (some post))
    (hauth : post.author.toString = user.id) :
    ∃ saved : Post,
      (editPost L s user id body).reply = Reply.json 200 (Payload.post saved) ∧
      Post.findById L (editPost L s user id body).store.posts id = .ok (some saved) ∧
      FieldRule (field body "title") post.title saved.title ∧
      FieldRule (field body "content") post.content saved.content ∧
      FieldRule (field body "category") post.category saved.category := by
  have hb : (post.author.toString != user.id) = false := by simp [hauth]
  refine ⟨{ post with
      title := jsOr (field body "title") post.title
      content := jsOr (field body "content") post.content
      category := jsOr (field body "category") post.category }, ?_, ?_,
    fieldRule_jsOr _ _, fieldRule_jsOr _ _, fieldRule_jsOr _ _⟩
  · simp [editPost, hfind, hb]
  · simp only [editPost, hfind, hb]
    exact findById_save hfind rfl

theorem editPost_field_rule_witness :
    ∃ saved : Post,
      (editPost demoLib store1 alice p1
        [("title", .str ""), ("content", .str "Edited"), ("category", .bool true)]).reply =
        Reply.json 200 (Payload.post saved) ∧
      Post.findById demoLib (editPost demoLib store1 alice p1
        [("title", .str ""), ("content", .str "Edited"),
          ("category", .bool true)]).store.posts p1 = .ok (some saved) ∧
      FieldRule (field [("title", .str ""), ("content", .str "Edited"),
        ("category", .bool true)] "title") post1.title saved.title ∧
      FieldRule (field [("title", .str ""), ("content", .str "Edited"),
        ("category", .bool true)] "content") post1.content saved.content ∧
      FieldRule (field [("title", .str ""), ("content", .str "Edited"),
        ("category", .bool true)] "category") post1.category saved.category :=
  editPost_field_rule demoLib store1 alice p1
    [("title", .str ""), ("content", .str "Edited"), ("category", .bool true)] post1
    (by decide) (by decide)

/-- C5 as stated fails: the author edits with a body that supplies only
`category`, as the empty string; the reply is 200, title and content are
kept, but the saved category is the prior one, not the supplied value. -/
theorem editPost_empty_category_kept :
    field [("category", JsVal.str "")] "title" = none ∧
    field [("category", JsVal.str "")] "content" = none ∧
    field [("category", JsVal.str "")] "category" = some (JsVal.str "") ∧
    Post.findById demoLib store1.posts p1 = .ok (some post1) ∧
    post1.author.toString = alice.id ∧
    (editPost demoLib store1 alice p1 [("category", JsVal.str "")]).reply.status = 200 ∧
    Post.findById demoLib
      (editPost demoLib store1 alice p1 [("category", JsVal.str "")]).store.posts p1 =
      .ok (some post1) ∧
    post1.category = some (JsVal.str "tech") ∧
    post1.category ≠ field [("category", JsVal.str "")] "category" := by
  decide

/-- C5 (amended): when the author edits an existing post with a body that
supplies only `category`, the reply is 200 and the saved post keeps title
and content; its category is the supplied value if that is non-empty, and
the prior category if the supplied value is the empty string. -/
theorem editPost_category_only (L : Lib) (s : Store) (user : Principal) (id : String)
    (body : Body) (post : Post) (c : String)
    (hfind : Post.findById L s.posts id = .ok (some post))
    (hauth : post.author.toString = user.id)
    (ht : field body "title" = none) (hc : field body "content" = none)
    (hcat : field body "category" = some (JsVal.str c)) :
    ∃ saved : Post,
      (editPost L s user id body).reply = Reply.json 200 (Payload.post saved) ∧
      (editPost L s user id body).reply.status = 200 ∧
      Post.findById L (editPost L s user id body).store.posts id = .ok (some saved) ∧
      saved.title = post.title ∧ saved.content = post.content ∧
      saved.category = (if c = "" then post.category else some (JsVal.str c)) := by
  have hb : (post.author.toString != user.id) = false := by simp [hauth]
  refine ⟨{ post with
      title := jsOr (field body "title") post.title
      content := jsOr (field body "content") post.content
      category := jsOr (field body "category") post.category }, ?_, ?_, ?_, ?_, ?_, ?_⟩
  · simp [editPost, hfind, hb]
  · simp [editPost, hfind, hb, Reply.status]
  · simp only [editPost, hfind, hb]
    exact findById_save hfind rfl
  · simp [ht, jsOr, truthy]
  · simp [hc, jsOr, truthy]
  · by_cases h : c = "" <;> simp [hcat, jsOr, truthy, JsVal.truthy, h]

theorem editPost_category_only_witness :
    ∃ saved : Post,
      (editPost demoLib store1 alice p1 [("category", .str "news")]).reply =
        Reply.json 200 (Payload.post saved) ∧
      (editPost demoLib store1 alice p1 [("category", .str "news")]).reply.status = 200 ∧
      Post.findById demoLib
        (editPost demoLib store1 alice p1 [("category", .str "news")]).store.posts p1 =
        .ok (some saved) ∧
      saved.title = post1.title ∧ saved.content = post1.content ∧
      saved.category = (if "news" = "" then post1.category else some (JsVal.str "news")) :=
  editPost_category_only demoLib store1 alice p1 [("category", .str "news")] post1 "news"
    (by decide) (by decide) (by decide) (by decide) (by decide)

theorem createPost_ok {s : Store} {user : Principal} {body : Body} {newId : ObjectId}
    (h : (createPost s user body newId).reply.status = 201) :
    (s.posts.any (fun p => p._id == newId)) = false ∧
    (createPost s user body newId).store =
      { s with posts := s.posts ++
          [⟨newId, field body "title", field body "content", field body "category",
            ⟨user.id⟩⟩] } := by
  unfold createPost at h ⊢
  by_cases h1 : (!truthy (field body "title") || !truthy (field body "content")) = true
  · simp [h1, Reply.status] at h
  · by_cases h2 : (s.posts.any (fun p => p._id == newId)) = true
    · simp [h1, Post.create, h2, Reply.status] at h
    · simp only [Bool.not_eq_true] at h2
      simp [h1, Post.create, h2]

/-- C6: when `createPost` answers 201, exactly one post is added and its
author is the id of the authenticated principal; and the whole effect of
`createPost` is the same for two bodies that agree on title, content and
category, whatever else (an `author` field, say) they carry. -/
theorem createPost_author (s : Store) (user : Principal) (body : Body) (newId : ObjectId)
    (h : (createPost s user body newId).reply.status = 201) :
    (∃ p : Post, (createPost s user body newId).store.posts = s.posts ++ [p] ∧
      p._id = newId ∧ p.author.toString = user.id) ∧
    (∀ other : Body, field other "title" = field body "title" →
      field other "content" = field body "content" →
      field other "category" = field body "category" →
      createPost s user other newId = createPost s user body newId) := by
  refine ⟨?_, ?_⟩
  · refine ⟨⟨newId, field body "title", field body "content", field body "category",
      ⟨user.id⟩⟩, ?_, rfl, rfl⟩
    rw [(createPost_ok h).2]
  · intro other h1 h2 h3
    simp only [createPost, h1, h2, h3]

theorem createPost_author_witness :
    (∃ p : Post,
      (createPost store1 alice postBody ⟨p2⟩).store.posts = store1.posts ++ [p] ∧
      p._id = ⟨p2⟩ ∧ p.author.toString = alice.id) ∧
    createPost store1 alice postBodyOther ⟨p2⟩ = createPost store1 alice postBody ⟨p2⟩ :=
  ⟨(createPost_author store1 alice postBody ⟨p2⟩ (by decide)).1,
    (createPost_author store1 alice postBody ⟨p2⟩ (by decide)).2 postBodyOther
      (by decide) (by decide) (by decide)⟩

/-- C8 as stated fails: no post has the id "p7", yet `deletePost` and
`editPost` do not answer 404 for it: the id cannot be cast, `findById`
throws, and the `catch` of each handler answers 422. -/
theorem absent_malformed_id_422 :
    (∀ q ∈ store1.posts, q._id.hex ≠ "p7") ∧
    demoLib.castObjectId "p7" = none ∧
    (deletePost demoLib store1 bob "p7").reply =
      Reply.next ⟨"Failed to delete post.", 422⟩ ∧
    (editPost demoLib store1 bob "p7" [("title", JsVal.str "T")]).reply =
      Reply.next ⟨"Failed to edit post.", 422⟩ := by
  decide

/-- C8 (amended): in a store whose posts have distinct ids, when the post
with the requested id was created by the principal, `deletePost` answers
200, the post is gone while every other post stays, and `getPost` for the
same id then answers 404; for a well-formed id that no post has,
`deletePost` and `editPost` answer 404 for every principal and body; and
for an id that cannot be cast, `deletePost`, `editPost` and `getPost` answer
422 and write nothing. -/
theorem deletePost_then_getPost (L : Lib) (s : Store) (u1 : Principal) (id : String)
    (post : Post) (hu : UniqueIds s.posts)
    (hfind : Post.findById L s.posts id = .ok (some post))
    (hauth : post.author.toString = u1.id) :
    (deletePost L s u1 id).reply.status = 200 ∧
    (∀ q : Post, q ∈ (deletePost L s u1 id).store.posts ↔ q ∈ s.posts ∧ q ≠ post) ∧
    (getPost L (deletePost L s u1 id).store id).reply.status = 404 ∧
    (∀ (t : Store) (user : Principal) (missing : String) (body : Body),
      Post.findById L t.posts missing = .ok none →
      (deletePost L t user missing).reply.status = 404 ∧
      (editPost L t user missing body).reply.status = 404) ∧
    (∀ (t : Store) (user : Principal) (bad : String) (body : Body),
      L.castObjectId bad = none →
      (deletePost L t user bad).reply.status = 422 ∧ (deletePost L t user bad).store = t ∧
      (editPost L t user bad body).reply.status = 422 ∧
      (editPost L t user bad body).store = t ∧
      (getPost L t bad).reply.status = 422) := by
  have hb : (post.author.toString != u1.id) = false := by simp [hauth]
  have hgone : Post.findById L (Post.remove s.posts post) id = .ok none :=
    findById_remove hu hfind
  obtain ⟨oid, hc, hf⟩ := findById_ok hfind
  have hid : post._id = oid := by simpa using List.find?_some hf
  have hmem := findById_mem hfind
  refine ⟨?_, ?_, ?_, ?_, ?_⟩
  · simp [deletePost, hfind, hb, Reply.status]
  · intro q
    simp only [deletePost, hfind, hb]
    constructor
    · intro hq
      have hq1 : q ∈ s.posts := (List.eraseP_sublist _).subset hq
      refine ⟨hq1, ?_⟩
      rintro rfl
      have hnone := find_remove hu hf
      have := (List.find?_eq_none.mp hnone) q hq
      simp [hid] at this
    · rintro ⟨hq1, hq2⟩
      have hne : ¬ (q._id == post._id) = true := by
        intro h
        exact hq2 (uniqueIds_eq hu hq1 hmem (by simpa using h))
      have hiff : q ∈ List.eraseP (fun x => x._id == post._id) s.posts ↔ q ∈ s.posts :=
        List.mem_eraseP_of_neg hne
      exact hiff.mpr hq1
  · simp only [deletePost, hfind, hb]
    simp [getPost, hgone, Reply.status]
  · intro t user missing body hnone
    simp [deletePost, editPost, hnone, Reply.status]
  · intro t user bad body hbad
    simp [deletePost, editPost, getPost, Post.findById, hbad, Reply.status]

theorem deletePost_then_getPost_witness :
    (deletePost demoLib store1 alice p1).reply.status = 200 ∧
    (post1 ∈ (deletePost demoLib store1 alice p1).store.posts ↔
      post1 ∈ store1.posts ∧ post1 ≠ post1) ∧
    (getPost demoLib (deletePost demoLib store1 alice p1).store p1).reply.status = 404 ∧
    ((deletePost demoLib store1 bob p9).reply.status = 404 ∧
      (editPost demoLib store1 bob p9 [("title", .str "T")]).reply.status = 404) ∧
    ((deletePost demoLib store1 bob "p7").reply.status = 422 ∧
      (deletePost demoLib store1 bob "p7").store = store1 ∧
      (editPost demoLib store1 bob "p7" [("title", .str "T")]).reply.status = 422 ∧
      (editPost demoLib store1 bob "p7" [("title", .str "T")]).store = store1 ∧
      (getPost demoLib store1 "p7").reply.status = 422) :=
  have h := deletePost_then_getPost demoLib store1 alice p1 post1
    (by unfold UniqueIds; decide) (by decide) (by decide)
  ⟨h.1, h.2.1 post1, h.2.2.1, h.2.2.2.1 store1 bob p9 [("title", .str "T")] (by decide),
    h.2.2.2.2 store1 bob "p7" [("title", .str "T")] (by decide)⟩

/-! ## Posts: the author never changes -/

theorem createPost_fail {s : Store} {user : Principal} {body : Body} {newId : ObjectId}
    (h : ¬ (createPost s user body newId).reply.status = 201) :
    (createPost s user body newId).store = s := by
  unfold createPost at h ⊢
  by_cases h1 : (!truthy (field body "title") || !truthy (field body "content")) = true
  · simp [h1]
  · by_cases h2 : (s.posts.any (fun p => p._id == newId)) = true
    · simp [h1, Post.create, h2]
    · simp only [Bool.not_eq_true] at h2
      simp [h1, Post.create, h2, Reply.status] at h

theorem editPost_store (L : Lib) (s : Store) (user : Principal) (id : String) (body : Body) :
    (editPost L s user id body).store = s ∨
    ∃ post upd : Post, post ∈ s.posts ∧ upd._id = post._id ∧ upd.author = post.author ∧
      (editPost L s user id body).store = { s with posts := Post.save s.posts upd } := by
  unfold editPost
  cases hfind : Post.findById L s.posts id with
  | error e => exact Or.inl rfl
  | ok found =>
    cases found with
    | none => exact Or.inl rfl
    | some post =>
      by_cases hb : (post.author.toString != user.id) = true
      · simp [hb]
      · right
        refine ⟨post, { post with
          title := jsOr (field body "title") post.title
          content := jsOr (field body "content") post.content
          category := jsOr (field body "category") post.category },
          findById_mem hfind, rfl, rfl, ?_⟩
        simp [hb]

theorem deletePost_store (L : Lib) (s : Store) (user : Principal) (id : String) :
    (deletePost L s user id).store.posts.Sublist s.posts := by
  unfold deletePost
  cases hfind : Post.findById L s.posts id with
  | error e => exact List.Sublist.refl _
  | ok found =>
    cases found with
    | none => exact List.Sublist.refl _
    | some post =>
      by_cases hb : (post.author.toString != user.id) = true
      · simp [hb]
      · simp only [hb]
        exact List.eraseP_sublist _

theorem traceOk_step {L : Lib} {t : Trace} (c : PostCall) (ht : TraceOk t) :
    TraceOk (t.step L c) := by
  obtain ⟨hu, hb⟩ := ht
  cases c with
  | create user body newId =>
    by_cases h : (createPost t.store user body newId).reply.status = 201
    · obtain ⟨hany, hst⟩ := createPost_ok h
      have hfresh : ∀ x ∈ t.store.posts, ¬ x._id = newId := by
        intro x hx
        have := (List.any_eq_false.mp hany) x hx
        simpa using this
      have hnone : t.store.posts.find? (fun p => p._id == newId) = none := by
        rw [List.find?_eq_none]
        intro x hx
        simpa using hfresh x hx
      simp only [Trace.step, PostCall.run, h, if_true, hst, List.find?_append, hnone,
        Option.or, List.find?_cons, beq_self_eq_true]
      refine ⟨?_, ?_⟩
      · unfold UniqueIds at hu ⊢
        simp only [List.map_append, List.map_cons, List.map_nil]
        rw [List.nodup_append]
        refine ⟨hu, List.nodup_singleton _, ?_⟩
        intro a ha1 ha2
        simp only [List.mem_singleton] at ha2
        obtain ⟨x, hx, rfl⟩ := List.mem_map.mp ha1
        exact hfresh x hx ha2
      · intro p hp
        simp only [List.mem_append, List.mem_singleton] at hp
        rcases hp with hp | rfl
        · have hne : (p._id == newId) = false := by simpa using hfresh p hp
          rw [List.lookup_cons, hne]
          exact hb p hp
        · simp [List.lookup_cons]
    · have hst := createPost_fail h
      simp only [Trace.step, PostCall.run, h, if_false, hst]
      exact ⟨hu, hb⟩
  | edit user id body =>
    simp only [Trace.step, PostCall.run]
    rcases editPost_store L t.store user id body with hst | ⟨post, upd, hmem, hid, hauth, hst⟩
    · rw [hst]; exact ⟨hu, hb⟩
    · rw [hst]
      refine ⟨?_, ?_⟩
      · unfold UniqueIds at hu ⊢
        simpa only [save_map_id] using hu
      · intro p hp
        rcases save_mem hp with hp | rfl
        · exact hb p hp
        · rw [hid, hauth]; exact hb post hmem
  | delete user id =>
    simp only [Trace.step, PostCall.run]
    have hsub := deletePost_store L t.store user id
    refine ⟨?_, ?_⟩
    · unfold UniqueIds at hu ⊢
      exact List.Nodup.sublist (hsub.map _) hu
    · intro p hp
      exact hb p (hsub.subset hp)

theorem traceOk_run {L : Lib} (cs : List PostCall) {t : Trace} (ht : TraceOk t) :
    TraceOk (t.run L cs) := by
  induction cs generalizing t with
  | nil => exact ht
  | cons c cs ih => exact ih (traceOk_step c ht)

/-- C9: starting with no posts, after any sequence of `createPost`,
`editPost` and `deletePost` calls by any principals with any bodies, every
post in the store has the author that was recorded for its id when it was
created. -/
theorem author_immutable (L : Lib) (users : List User) (cs : List PostCall) (p : Post)
    (hp : p ∈ (Trace.run L ⟨⟨users, []⟩, []⟩ cs).store.posts) :
    (Trace.run L ⟨⟨users, []⟩, []⟩ cs).born.lookup p._id = some p.author := by
  have h0 : TraceOk ⟨⟨users, []⟩, []⟩ := by
    refine ⟨?_, ?_⟩
    · simp [UniqueIds]
    · intro p hp; simp at hp
  exact (traceOk_run cs h0).2 p hp

theorem author_immutable_witness :
    (Trace.run demoLib ⟨⟨[], []⟩, []⟩
      [PostCall.create alice [("title", .str "T"), ("content", .str "C")] ⟨p1⟩,
        PostCall.edit bob p1 [("title", .str "Taken")],
        PostCall.edit alice p1 [("title", .str "T2"), ("author", .str u2)],
        PostCall.create bob [("title", .str "B"), ("content", .num 7)] ⟨p2⟩,
        PostCall.delete alice p2]).born.lookup
      (Post.mk ⟨p1⟩ (some (.str "T2")) (some (.str "C")) none ⟨u1⟩)._id =
    some (Post.mk ⟨p1⟩ (some (.str "T2")) (some (.str "C")) none ⟨u1⟩).author :=
  author_immutable demoLib []
    [PostCall.create alice [("title", .str "T"), ("content", .str "C")] ⟨p1⟩,
      PostCall.edit bob p1 [("title", .str "Taken")],
      PostCall.edit alice p1 [("title", .str "T2"), ("author", .str u2)],
      PostCall.create bob [("title", .str "B"), ("content", .num 7)] ⟨p2⟩,
      PostCall.delete alice p2]
    (Post.mk ⟨p1⟩ (some (.str "T2")) (some (.str "C")) none ⟨u1⟩) (by decide)

/-! ## Users: lemmas on `registerUser` -/

theorem jsTrim_empty : jsLength (jsTrim "") = 0 := by decide

theorem findOne_none_iff {users : List User} {email : String} :
    User.findOne users email = none ↔ ∀ u ∈ users, u.email ≠ email := by
  simp [User.findOne, List.find?_eq_none]

theorem findOne_some_of_mem {users : List User} {u : User} (hu : u ∈ users) :
    ∃ v, User.findOne users u.email = some v ∧ v ∈ users ∧ v.email = u.email := by
  cases h : User.findOne users u.email with
  | none => exact absurd rfl (findOne_none_iff.mp h u hu)
  | some v =>
    refine ⟨v, rfl, List.mem_of_find?_eq_some h, ?_⟩
    have := List.find?_some h
    simpa using this

/-- The two ways `registerUser` can end: a 422 that leaves the store as it
was, or a 201 that appends one user with the lower-cased email. -/
theorem registerUser_cases (L : Lib) (s : Store) (body : Body) (salt : String)
    (newId : ObjectId) :
    ((registerUser L s body salt newId).reply.status = 422 ∧
      (registerUser L s body salt newId).store = s) ∨
    ((registerUser L s body salt newId).reply.status = 201 ∧
      ∃ name email password, field body "email" = some (JsVal.str email) ∧
        User.findOne s.users (L.toLowerCase email) = none ∧
        (registerUser L s body salt newId).store =
          { s with users := s.users ++
              [⟨newId, name, L.toLowerCase email, L.hash password salt⟩] }) := by
  unfold registerUser
  cases hn : field body "name" with
  | none => left; simp [Reply.status]
  | some name =>
    cases he : field body "email" with
    | none => left; simp [Reply.status]
    | some email =>
      cases hp : field body "password" with
      | none => left; simp [Reply.status]
      | some password =>
        by_cases h1 : (!name.truthy || !email.truthy || !password.truthy) = true
        · left; simp [h1, Reply.status]
        · cases email with
          | str email =>
            cases hf : User.findOne s.users (L.toLowerCase email) with
            | some u => left; simp [h1, hf, Reply.status]
            | none =>
              cases password with
              | str password =>
                by_cases h2 : jsLength (jsTrim password) < 6
                · left; simp [h1, hf, h2, Reply.status]
                · by_cases h3 :
                      (some (JsVal.str password) != field body "confirmPassword") = true
                  · left; simp [h1, hf, h2, h3, Reply.status]
                  · by_cases h4 : (s.users.any (fun u => u._id == newId)) = true
                    · left; simp [h1, hf, h2, h3, User.create, h4, Reply.status]
                    · right
                      simp only [Bool.not_eq_true] at h4
                      refine ⟨by simp [h1, hf, h2, h3, User.create, h4, Reply.status],
                        name, email, password, rfl, hf, ?_⟩
                      simp [h1, hf, h2, h3, User.create, h4]
              | null => left; simp [h1, hf, Reply.status]
              | bool b => left; simp [h1, hf, Reply.status]
              | num n => left; simp [h1, hf, Reply.status]
              | compound j => left; simp [h1, hf, Reply.status]
          | null => left; simp [h1, Reply.status]
          | bool b => left; simp [h1, Reply.status]
          | num n => left; simp [h1, Reply.status]
          | compound j => left; simp [h1, Reply.status]

theorem registerUser_taken {L : Lib} {s : Store} {body : Body} {salt : String}
    {newId : ObjectId} {email : String} {u : User}
    (he : field body "email" = some (JsVal.str email)) (hu : u ∈ s.users)
    (hue : u.email = L.toLowerCase email) :
    (registerUser L s body salt newId).reply.status = 422 ∧
    (registerUser L s body salt newId).store = s := by
  rcases registerUser_cases L s body salt newId with h | ⟨_, name, email2, password, he2, hf, _⟩
  · exact h
  · rw [he] at he2
    cases he2
    exact absurd hue (findOne_none_iff.mp hf u hu)

theorem registerUser_users_mono (L : Lib) (s : Store) (body : Body) (salt : String)
    (newId : ObjectId) {u : User} (hu : u ∈ s.users) :
    u ∈ (registerUser L s body salt newId).store.users := by
  rcases registerUser_cases L s body salt newId with h | ⟨_, name, email, password, _, _, hst⟩
  · rw [h.2]; exact hu
  · rw [hst]; exact List.mem_append_left _ hu

theorem registerAll_users_mono (L : Lib) (cs : List RegisterCall) {s : Store} {u : User}
    (hu : u ∈ s.users) : u ∈ (registerAll L s cs).users := by
  induction cs generalizing s with
  | nil => exact hu
  | cons c cs ih =>
    exact ih (registerUser_users_mono L s c.body c.salt c.newId hu)

theorem usersNormal_step {L : Lib}
    (hl : ∀ x, L.toLowerCase (L.toLowerCase x) = L.toLowerCase x) {s : Store}
    (c : RegisterCall) (hs : UsersNormal L s.users) :
    UsersNormal L (c.run L s).store.users := by
  unfold RegisterCall.run
  rcases registerUser_cases L s c.body c.salt c.newId with
    h | ⟨_, name, email, password, _, hf, hst⟩
  · rw [h.2]; exact hs
  · rw [hst]
    obtain ⟨hlow, hnd⟩ := hs
    refine ⟨?_, ?_⟩
    · intro u hu
      simp only [List.mem_append, List.mem_singleton] at hu
      rcases hu with hu | rfl
      · exact hlow u hu
      · exact hl email
    · simp only [List.map_append, List.map_cons, List.map_nil]
      rw [List.nodup_append]
      refine ⟨hnd, List.nodup_singleton _, ?_⟩
      intro a ha1 ha2
      simp only [List.mem_singleton] at ha2
      obtain ⟨x, hx, rfl⟩ := List.mem_map.mp ha1
      exact findOne_none_iff.mp hf x hx ha2

theorem usersNormal_registerAll {L : Lib}
    (hl : ∀ x, L.toLowerCase (L.toLowerCase x) = L.toLowerCase x)
    (cs : List RegisterCall) {s : Store} (hs : UsersNormal L s.users) :
    UsersNormal L (registerAll L s cs).users := by
  induction cs generalizing s with
  | nil => exact hs
  | cons c cs ih => exact ih (usersNormal_step hl c hs)

theorem lowerChar_idem (c : Char) : lowerChar (lowerChar c) = lowerChar c := by
  unfold lowerChar
  by_cases h : 65 ≤ c.toNat ∧ c.toNat ≤ 90
  · have key : ∀ n : Nat, 65 ≤ n → n ≤ 90 →
        ¬ (65 ≤ (Char.ofNat (n + 32)).toNat ∧ (Char.ofNat (n + 32)).toNat ≤ 90) := by
      intro n h1 h2
      interval_cases n <;> decide
    simp only [h, and_self, if_true]
    rw [if_neg (key c.toNat h.1 h.2)]
  · simp only [h, if_false]

theorem asciiLower_idem (x : String) : asciiLower (asciiLower x) = asciiLower x := by
  simp [asciiLower, List.map_map, Function.comp_def, lowerChar_idem]

/-! ## Users: registration and login -/

/-- C2 as stated fails: name and email are non-empty, the password has
length 6 and equals its confirmation, and the store holds no user at all,
yet `registerUser` answers 422 and creates nothing, because the password is
measured after trimming. -/
theorem registerUser_padded_password :
    field paddedBody "name" = some (JsVal.str "A") ∧
    field paddedBody "email" = some (JsVal.str "A@x.com") ∧
    field paddedBody "password" = some (JsVal.str "abc   ") ∧
    field paddedBody "confirmPassword" = some (JsVal.str "abc   ") ∧
    jsLength "abc   " = 6 ∧
    User.findOne Store.empty.users (demoLib.toLowerCase "A@x.com") = none ∧
    (registerUser demoLib Store.empty paddedBody "s1" ⟨u1⟩).reply =
      Reply.next ⟨"Password must be at least 6 characters.", 422⟩ ∧
    (registerUser demoLib Store.empty paddedBody "s1" ⟨u1⟩).store = Store.empty := by
  decide

/-- C2 (amended): for a body with non-empty name and email, a password whose
length after trimming is at least 6 and a confirmation equal to the
password, in a store with no user under the lower-cased email, and with a
fresh `_id` (the insert does not fail), `registerUser` answers 201 and adds
exactly one user: that name, the lower-cased email and the hashed password. -/
theorem registerUser_succeeds (L : Lib) (s : Store) (body : Body) (salt : String)
    (newId : ObjectId) (name email password : String)
    (hn : field body "name" = some (JsVal.str name)) (hn0 : name ≠ "")
    (he : field body "email" = some (JsVal.str email)) (he0 : email ≠ "")
    (hp : field body "password" = some (JsVal.str password))
    (hlen : 6 ≤ jsLength (jsTrim password))
    (hc : field body "confirmPassword" = some (JsVal.str password))
    (hfree : ∀ u ∈ s.users, u.email ≠ L.toLowerCase email)
    (hid : ∀ u ∈ s.users, u._id ≠ newId) :
    (registerUser L s body salt newId).reply.status = 201 ∧
    (registerUser L s body salt newId).store =
      { s with users := s.users ++
          [⟨newId, JsVal.str name, L.toLowerCase email, L.hash password salt⟩] } := by
  have hp0 : password ≠ "" := by
    rintro rfl
    rw [jsTrim_empty] at hlen
    omega
  have hf : User.findOne s.users (L.toLowerCase email) = none := findOne_none_iff.mpr hfree
  have hany : (s.users.any (fun u => u._id == newId)) = false := by
    rw [List.any_eq_false]
    intro u hu
    simpa using hid u hu
  have hlen2 : ¬ jsLength (jsTrim password) < 6 := by omega
  simp [registerUser, hn, he, hp, hc, hn0, he0, hp0, hf, hlen2, User.create, hany,
    Reply.status, JsVal.truthy]

theorem registerUser_succeeds_witness :
    (registerUser demoLib Store.empty goodBody "s1" ⟨u1⟩).reply.status = 201 ∧
    (registerUser demoLib Store.empty goodBody "s1" ⟨u1⟩).store =
      { Store.empty with users := Store.empty.users ++
          [⟨⟨u1⟩, JsVal.str "A", demoLib.toLowerCase "A@x.com",
            demoLib.hash "secret1" "s1"⟩] } :=
  registerUser_succeeds demoLib Store.empty goodBody "s1" ⟨u1⟩ "A" "A@x.com" "secret1"
    (by decide) (by decide) (by decide) (by decide) (by decide) (by decide) (by decide)
    (by decide) (by decide)

/-- C3 as stated fails: of two login requests with non-empty email and
password, one with an email no user has and one with a stored email and a
password that does not verify, the first is answered with the message
"User Does Not Exist." and the second with "Password Incorrect.". -/
theorem loginUser_messages_differ :
    User.findOne store1.users (demoLib.toLowerCase "nobody@x.com") = none ∧
    (User.findOne store1.users (demoLib.toLowerCase "A@x.com")).map
      (fun u => demoLib.compare "wrong" u.password) = some false ∧
    (loginUser demoLib store1 loginNobody (some "k")).reply =
      Reply.next ⟨"User Does Not Exist.", 422⟩ ∧
    (loginUser demoLib store1 loginWrong (some "k")).reply =
      Reply.next ⟨"Password Incorrect.", 422⟩ ∧
    (loginUser demoLib store1 loginNobody (some "k")).reply.message ≠
      (loginUser demoLib store1 loginWrong (some "k")).reply.message := by
  decide

/-- C3 (amended): of two login requests with non-empty email and password,
one whose lower-cased email matches no user and one whose email matches a
user but whose password does not verify, both are answered with status 422
and leave the store alone; the messages are "User Does Not Exist." for the
first and "Password Incorrect." for the second. -/
theorem loginUser_failures (L : Lib) (s : Store) (secret : Option String) (b1 b2 : Body)
    (e1 p1 e2 p2 : String) (u : User)
    (h1e : field b1 "email" = some (JsVal.str e1))
    (h1p : field b1 "password" = some (JsVal.str p1))
    (h2e : field b2 "email" = some (JsVal.str e2))
    (h2p : field b2 "password" = some (JsVal.str p2))
    (h1e0 : e1 ≠ "") (h1p0 : p1 ≠ "") (h2e0 : e2 ≠ "") (h2p0 : p2 ≠ "")
    (hnone : User.findOne s.users (L.toLowerCase e1) = none)
    (hsome : User.findOne s.users (L.toLowerCase e2) = some u)
    (hbad : L.compare p2 u.password = false) :
    (loginUser L s b1 secret).reply = Reply.next ⟨"User Does Not Exist.", 422⟩ ∧
    (loginUser L s b2 secret).reply = Reply.next ⟨"Password Incorrect.", 422⟩ ∧
    (loginUser L s b1 secret).reply.status = (loginUser L s b2 secret).reply.status ∧
    (loginUser L s b1 secret).store = s ∧ (loginUser L s b2 secret).store = s := by
  simp [loginUser, h1e, h1p, h2e, h2p, h1e0, h1p0, h2e0, h2p0, hnone, hsome, hbad,
    Reply.status, JsVal.truthy]

theorem loginUser_failures_witness :
    (loginUser demoLib store1 loginNobody (some "k")).reply =
      Reply.next ⟨"User Does Not Exist.", 422⟩ ∧
    (loginUser demoLib store1 [("email", .str "B@x.com"), ("password", .str "wrong")]
      (some "k")).reply = Reply.next ⟨"Password Incorrect.", 422⟩ ∧
    (loginUser demoLib store1 loginNobody (some "k")).reply.status =
      (loginUser demoLib store1 [("email", .str "B@x.com"), ("password", .str "wrong")]
        (some "k")).reply.status ∧
    (loginUser demoLib store1 loginNobody (some "k")).store = store1 ∧
    (loginUser demoLib store1 [("email", .str "B@x.com"), ("password", .str "wrong")]
      (some "k")).store = store1 :=
  loginUser_failures demoLib store1 (some "k") loginNobody
    [("email", .str "B@x.com"), ("password", .str "wrong")]
    "nobody@x.com" "secret1" "B@x.com" "wrong" ⟨⟨u2⟩, .str "Bob", "b@x.com", "s2$hunter22"⟩
    (by decide) (by decide) (by decide) (by decide) (by decide) (by decide) (by decide)
    (by decide) (by decide) (by decide) (by decide)

/-- C4: with a lower-casing that is idempotent, starting from the empty
store and after any sequence of `registerUser` calls: once a registration
with email `e` has answered 201, every later `registerUser` call whose email
equals `e` up to letter case answers 422 and leaves the store as it was;
and every stored email is lower-case and no two stored users share one. -/
theorem register_once (L : Lib)
    (hl : ∀ x, L.toLowerCase (L.toLowerCase x) = L.toLowerCase x) :
    (∀ (pre mid : List RegisterCall) (c again : RegisterCall) (e e2 : String),
      (c.run L (registerAll L Store.empty pre)).reply.status = 201 →
      field c.body "email" = some (JsVal.str e) →
      field again.body "email" = some (JsVal.str e2) →
      L.toLowerCase e2 = L.toLowerCase e →
      (again.run L (registerAll L (c.run L (registerAll L Store.empty pre)).store
        mid)).reply.status = 422 ∧
      (again.run L (registerAll L (c.run L (registerAll L Store.empty pre)).store
        mid)).store =
        registerAll L (c.run L (registerAll L Store.empty pre)).store mid) ∧
    (∀ cs : List RegisterCall, UsersNormal L (registerAll L Store.empty cs).users) := by
  refine ⟨?_, ?_⟩
  · intro pre mid c again e e2 hok he he2 hcase
    unfold RegisterCall.run at hok ⊢
    rcases registerUser_cases L (registerAll L Store.empty pre) c.body c.salt c.newId with
      h | ⟨_, name, email, password, hem, _, hst⟩
    · rw [h.1] at hok
      exact absurd hok (by decide)
    · rw [he] at hem
      cases hem
      have hmem : (⟨c.newId, name, L.toLowerCase e, L.hash password c.salt⟩ : User) ∈
          (registerUser L (registerAll L Store.empty pre) c.body c.salt c.newId).store.users := by
        rw [hst]; simp
      have hmem2 := registerAll_users_mono L mid hmem
      exact registerUser_taken he2 hmem2 hcase.symm
  · intro cs
    exact usersNormal_registerAll hl cs (by simp [UsersNormal, Store.empty])

theorem register_once_witness :
    ((regAliceCaps.run demoLib (registerAll demoLib
        (regAlice.run demoLib (registerAll demoLib Store.empty [])).store
        [regBob])).reply.status = 422 ∧
      (regAliceCaps.run demoLib (registerAll demoLib
        (regAlice.run demoLib (registerAll demoLib Store.empty [])).store [regBob])).store =
        registerAll demoLib
          (regAlice.run demoLib (registerAll demoLib Store.empty [])).store [regBob]) ∧
    UsersNormal demoLib
      (registerAll demoLib Store.empty [regAlice, regBob, regAliceCaps]).users :=
  ⟨(register_once demoLib asciiLower_idem).1 [] [regBob] regAlice regAliceCaps
      "a@X.com" "A@X.COM" (by decide) (by decide) (by decide) (by decide),
    (register_once demoLib asciiLower_idem).2 [regAlice, regBob, regAliceCaps]⟩

/-- C7 as stated fails: the user is stored, the email of the request equals
the stored one up to letter case and the password verifies, yet with
`JWT_SECRET` unset (or empty) `jwt.sign` throws and `loginUser` answers 422
instead of 200. -/
theorem loginUser_without_secret :
    (⟨⟨u1⟩, JsVal.str "Alice", "a@x.com", "s1$secret1"⟩ : User) ∈ store1.users ∧
    field loginAlice "email" = some (JsVal.str "A@X.com") ∧
    field loginAlice "password" = some (JsVal.str "secret1") ∧
    demoLib.toLowerCase "A@X.com" = demoLib.toLowerCase "a@x.com" ∧
    demoLib.compare "secret1" "s1$secret1" = true ∧
    (loginUser demoLib store1 loginAlice none).reply =
      Reply.next ⟨"Login Failed. Please Check Your Credentials.", 422⟩ ∧
    (loginUser demoLib store1 loginAlice (some "")).reply =
      Reply.next ⟨"Login Failed. Please Check Your Credentials.", 422⟩ := by
  decide

/-- C7 (amended): in a store whose emails are lower-case and distinct, for a
stored user and a login request with both fields filled in, whose email
equals the stored email up to letter case and whose password verifies
against the stored hash: when `JWT_SECRET` is set to a non-empty string,
`loginUser` answers 200 with a token signed over that user's id and name,
together with the same id and name in the body; when it is unset or empty,
`loginUser` answers 422. -/
theorem loginUser_token (L : Lib) (s : Store) (body : Body) (secret : Option String)
    (email password : String) (u : User)
    (hs : UsersNormal L s.users) (hu : u ∈ s.users)
    (he : field body "email" = some (JsVal.str email))
    (hp : field body "password" = some (JsVal.str password))
    (he0 : email ≠ "") (hp0 : password ≠ "")
    (hcase : L.toLowerCase email = L.toLowerCase u.email)
    (hv : L.compare password u.password = true) :
    (∀ key : String, secret = some key → key ≠ "" →
      ∃ token : Token,
        (loginUser L s body secret).reply =
          Reply.json 200 (Payload.login token u._id u.name) ∧
        (loginUser L s body secret).reply.status = 200 ∧
        token.payload.id = u._id ∧ token.payload.name = u.name ∧
        jwtSign ⟨u._id, u.name⟩ secret "1d" = .ok token) ∧
    ((secret = none ∨ secret = some "") →
      (loginUser L s body secret).reply =
        Reply.next ⟨"Login Failed. Please Check Your Credentials.", 422⟩) := by
  have hlow : L.toLowerCase email = u.email := by rw [hcase]; exact hs.1 u hu
  obtain ⟨v, hfind, hvm, hve⟩ := findOne_some_of_mem hu
  have hvu : v = u := by
    have hinj := List.inj_on_of_nodup_map hs.2
    exact hinj hvm hu hve
  subst hvu
  refine ⟨?_, ?_⟩
  · intro key hk hk0
    subst hk
    refine ⟨⟨⟨v._id, v.name⟩, key, "1d"⟩, ?_, ?_, rfl, rfl, ?_⟩
    · simp [loginUser, he, hp, he0, hp0, hlow, hfind, hv, jwtSign, hk0, JsVal.truthy]
    · simp [loginUser, he, hp, he0, hp0, hlow, hfind, hv, jwtSign, hk0, JsVal.truthy,
        Reply.status]
    · simp [jwtSign, hk0]
  · rintro (h | h) <;>
      simp [loginUser, he, hp, he0, hp0, hlow, hfind, hv, jwtSign, h, JsVal.truthy]

theorem loginUser_token_witness :
    (∃ token : Token,
      (loginUser demoLib store1 loginAlice (some "k")).reply =
        Reply.json 200 (Payload.login token ⟨u1⟩ (JsVal.str "Alice")) ∧
      (loginUser demoLib store1 loginAlice (some "k")).reply.status = 200 ∧
      token.payload.id = ⟨u1⟩ ∧ token.payload.name = JsVal.str "Alice" ∧
      jwtSign ⟨⟨u1⟩, JsVal.str "Alice"⟩ (some "k") "1d" = .ok token) ∧
    (loginUser demoLib store1 loginAlice none).reply =
      Reply.next ⟨"Login Failed. Please Check Your Credentials.", 422⟩ :=
  ⟨(loginUser_token demoLib store1 loginAlice (some "k") "A@X.com" "secret1"
      ⟨⟨u1⟩, .str "Alice", "a@x.com", "s1$secret1"⟩
      (by unfold UsersNormal; decide) (by decide) (by decide) (by decide) (by decide)
      (by decide) (by decide) (by decide)).1 "k" rfl (by decide),
    (loginUser_token demoLib store1 loginAlice none "A@X.com" "secret1"
      ⟨⟨u1⟩, .str "Alice", "a@x.com", "s1$secret1"⟩
      (by unfold UsersNormal; decide) (by decide) (by decide) (by decide) (by decide)
      (by decide) (by decide) (by decide)).2 (Or.inl rfl)⟩

end MernBlog
